import Mathlib

/-!
Verification of the Scrynt stock-analytics engine against its specification.

The engine is a set of pure client-side functions over a flat list of stock
records: min/max normalization, five factor scorers combined into a composite
score, a Sharpe-ratio computation, pairwise Pearson correlation with
fixed-size per-sector clustering, and dividend/risk-return view projections.

Modelling conventions:
* JavaScript numbers are modelled as real numbers (`ℝ`).
* Nullable numeric fields are `Option ℝ`; where the source reads a possibly
  null field in an arithmetic position, JavaScript coerces `null` to `0`,
  modelled by `Option.getD 0`.  Where the source explicitly tests
  `!== null` the model tests `Option.isSome`.
* `Array.prototype.sort` with comparator `(a, b) => b.k - a.k` is a stable
  descending sort by `k`, modelled by `List.mergeSort` with the Boolean
  relation `b.k ≤ a.k`.
* A JavaScript object used as a string-keyed grouping map (insertion
  order of first key occurrence, values pushed in input order) is modelled
  by the list of first-occurrence keys together with `List.filter` per key.
-/

noncomputable section

/-- The per-ticker stock record (`StockData` in `services/stockService.ts`).
All numeric fields are nullable: absence means "insufficient data". -/
structure StockData where
  ticker : String
  name : String
  sector : String
  price : Option ℝ
  market_cap : Option ℝ
  change_1w : Option ℝ
  change_1m : Option ℝ
  change_6m : Option ℝ
  change_ytd : Option ℝ
  change_1y : Option ℝ
  change_3y : Option ℝ
  dividend_yield : Option ℝ
  dividend_growth : Option ℝ
  payout_ratio : Option ℝ
  peg_ratio : Option ℝ
  pb_ratio : Option ℝ
  pe_forward : Option ℝ
  eps_growth_3y : Option ℝ
  revenue_growth_3y : Option ℝ
  roe : Option ℝ
  roa : Option ℝ
  beta : Option ℝ

/-- Function `normalizeMetric` from the CompositeScoreView:
`((value - min) / (max - min)) * 100`. -/
def normalizeMetric (value min max : ℝ) : ℝ :=
  ((value - min) / (max - min)) * 100

/-- Function `computeSharpeRatio` from `utils/financialMetrics.ts`.  Returns `none`
(the JS `null` sentinel) for an empty series or when the sample standard
deviation of the excess returns is below `0.0001`. -/
def computeSharpeRatio (returns : List ℝ) (riskFreeRate : ℝ := 0.05) :
    Option ℝ :=
  if returns.length = 0 then none else
  let periodicRiskFreeRate := riskFreeRate / 12
  let excessReturns := returns.map (fun r => r - periodicRiskFreeRate)
  let avgExcessReturn := excessReturns.sum / (excessReturns.length : ℝ)
  let squaredDiffs := excessReturns.map (fun r => (r - avgExcessReturn) ^ 2)
  let variance := squaredDiffs.sum / ((excessReturns.length : ℝ) - 1)
  let stdDev := Real.sqrt variance
  if stdDev < 0.0001 then none
  else some ((avgExcessReturn / stdDev) * Real.sqrt 12)

/-- Mean of the excess returns, written as the specification describes it:
subtract the monthly risk-free rate (annual rate divided by 12) from each
return and take the mean. -/
def sharpeMean (returns : List ℝ) (riskFreeRate : ℝ) : ℝ :=
  ((returns.map (fun r => r - riskFreeRate / 12)).sum) / (returns.length : ℝ)

/-- Sample standard deviation (denominator `n - 1`) of the excess returns,
written as the specification describes it. -/
def sharpeStd (returns : List ℝ) (riskFreeRate : ℝ) : ℝ :=
  Real.sqrt
    (((returns.map (fun r => r - riskFreeRate / 12)).map
        (fun x => (x - sharpeMean returns riskFreeRate) ^ 2)).sum /
      ((returns.length : ℝ) - 1))

lemma normalizeMetric_self_min {min max : ℝ} :
    normalizeMetric min min max = 0 := by
  simp [normalizeMetric]

lemma normalizeMetric_self_max {min max : ℝ} (h : min < max) :
    normalizeMetric max min max = 100 := by
  have hne : max - min ≠ 0 := sub_ne_zero_of_ne (ne_of_gt h)
  simp [normalizeMetric, div_self hne]

lemma normalizeMetric_mono {min max : ℝ} (h : min < max) {v w : ℝ}
    (hvw : v ≤ w) : normalizeMetric v min max ≤ normalizeMetric w min max := by
  have hpos : 0 < max - min := sub_pos.mpr h
  unfold normalizeMetric
  have h1 : (v - min) / (max - min) ≤ (w - min) / (max - min) :=
    (div_le_div_iff_of_pos_right hpos).mpr (by linarith)
  nlinarith

lemma computeSharpeRatio_replicate (r rfr : ℝ) {n : ℕ} (hn : 2 ≤ n) :
    computeSharpeRatio (List.replicate n r) rfr = none := by
  have hn0 : (n : ℝ) ≠ 0 := Nat.cast_ne_zero.mpr (by omega)
  simp only [computeSharpeRatio, List.map_replicate, List.length_replicate,
    List.sum_replicate, nsmul_eq_mul]
  rw [if_neg (by omega)]
  have havg : (n : ℝ) * (r - rfr / 12) / (n : ℝ) = r - rfr / 12 := by
    field_simp
    ring
  rw [havg]
  simp only [sub_self, zero_pow, ne_eq, OfNat.ofNat_ne_zero,
    not_false_iff, mul_zero, zero_div, Real.sqrt_zero]
  rw [if_pos (by norm_num)]

lemma computeSharpeRatio_eq (returns : List ℝ) (rfr : ℝ) (h : returns ≠ []) :
    computeSharpeRatio returns rfr =
      if sharpeStd returns rfr < 0.0001 then none
      else some (sharpeMean returns rfr / sharpeStd returns rfr *
        Real.sqrt 12) := by
  have hlen : returns.length ≠ 0 := by simpa using h
  simp only [computeSharpeRatio, sharpeMean, sharpeStd, List.length_map]
  rw [if_neg hlen]

/-- Claim C2: for `min < max`, `normalizeMetric v min max` equals
`((v - min) / (max - min)) * 100`; it sends `min` to `0` and `max` to `100`,
and for fixed bounds it is monotone non-decreasing in `v`. -/
theorem normalizeMetric_spec (v min max : ℝ) (h : min < max) :
    normalizeMetric v min max = ((v - min) / (max - min)) * 100 ∧
    normalizeMetric min min max = 0 ∧
    normalizeMetric max min max = 100 ∧
    (∀ v₁ v₂ : ℝ, v₁ ≤ v₂ →
      normalizeMetric v₁ min max ≤ normalizeMetric v₂ min max) :=
  ⟨rfl, normalizeMetric_self_min, normalizeMetric_self_max h,
   fun _ _ hvw => normalizeMetric_mono h hvw⟩

theorem normalizeMetric_spec_witness :
    (0:ℝ) < 10 ∧ normalizeMetric 0 0 10 = 0 ∧ normalizeMetric 10 0 10 = 100 :=
  ⟨by norm_num, (normalizeMetric_spec 5 0 10 (by norm_num)).2.1,
   (normalizeMetric_spec 5 0 10 (by norm_num)).2.2.1⟩

/-- Claim C3: `computeSharpeRatio` subtracts the monthly risk-free rate
(annual rate / 12) from each return, takes the mean and the sample standard
deviation (denominator `n - 1`) of the excess returns, returns the `none`
sentinel whenever that standard deviation is below `0.0001` — in particular
for any list of two or more equal returns, regardless of the risk-free
rate — and otherwise returns `(mean / stdDev) * sqrt 12`. -/
theorem computeSharpeRatio_spec (returns : List ℝ) (rfr : ℝ) :
    (∀ (r : ℝ) (n : ℕ), 2 ≤ n →
        computeSharpeRatio (List.replicate n r) rfr = none) ∧
    (returns ≠ [] →
      computeSharpeRatio returns rfr =
        if sharpeStd returns rfr < 0.0001 then none
        else some (sharpeMean returns rfr / sharpeStd returns rfr *
          Real.sqrt 12)) :=
  ⟨fun r _ hn => computeSharpeRatio_replicate r rfr hn,
   fun h => computeSharpeRatio_eq returns rfr h⟩

theorem computeSharpeRatio_spec_witness :
    computeSharpeRatio (List.replicate 3 (0.05:ℝ)) 0.02 = none :=
  (computeSharpeRatio_spec [] 0.02).1 0.05 3 (by norm_num)

/-- Function `calculatePearsonCorrelation` from the CorrelationClusteringView.
`sum_xy` is `x.reduce((acc, curr, i) => acc + curr * y[i], 0)`, modelled by
`zipWith` (the engine only ever passes equal-length series).  The
`denominator === 0` guard returns `0` instead of a division by zero. -/
def calculatePearsonCorrelation (x y : List ℝ) : ℝ :=
  let n : ℝ := x.length
  let sum_x := x.sum
  let sum_y := y.sum
  let sum_xy := (List.zipWith (fun a b => a * b) x y).sum
  let sum_x2 := (x.map (fun a => a * a)).sum
  let sum_y2 := (y.map (fun a => a * a)).sum
  let numerator := n * sum_xy - sum_x * sum_y
  let denominator :=
    Real.sqrt ((n * sum_x2 - sum_x * sum_x) * (n * sum_y2 - sum_y * sum_y))
  if denominator = 0 then 0 else numerator / denominator

lemma fin_variance_identity {n : ℕ} (f : Fin n → ℝ) (hn : n ≠ 0) :
    (n : ℝ) * (∑ i, f i * f i) - (∑ i, f i) * (∑ i, f i)
      = (n : ℝ) * ∑ i, (f i - (∑ j, f j) / n) ^ 2 := by
  have hn0 : (n : ℝ) ≠ 0 := Nat.cast_ne_zero.mpr hn
  have expand : ∀ i : Fin n, (f i - (∑ j, f j) / n) ^ 2
      = f i * f i - 2 * ((∑ j, f j) / n) * f i + ((∑ j, f j) / n) ^ 2 :=
    fun i => by ring
  rw [Finset.sum_congr rfl (fun i _ => expand i), Finset.sum_add_distrib,
    Finset.sum_sub_distrib, ← Finset.mul_sum, Finset.sum_const,
    Finset.card_univ, Fintype.card_fin, nsmul_eq_mul]
  field_simp
  ring

lemma fin_variance_pos {n : ℕ} (f : Fin n → ℝ) (i j : Fin n)
    (hij : f i ≠ f j) :
    0 < (n : ℝ) * (∑ k, f k * f k) - (∑ k, f k) * (∑ k, f k) := by
  have hn : n ≠ 0 := (Fin.pos i).ne'
  have hkey : 0 < ∑ k, (f k - (∑ j, f j) / n) ^ 2 := by
    apply Finset.sum_pos'
    · intro k _
      positivity
    · by_cases h : f i = (∑ j, f j) / n
      · refine ⟨j, Finset.mem_univ j, ?_⟩
        have hne : f j - (∑ j, f j) / n ≠ 0 := fun hz => by
          have : f j = (∑ j, f j) / n := by linarith [sub_eq_zero.mp hz]
          exact hij (h.trans this.symm)
        exact sq_pos_of_ne_zero hne
      · refine ⟨i, Finset.mem_univ i, ?_⟩
        exact sq_pos_of_ne_zero (sub_ne_zero.mpr h)
  rw [fin_variance_identity f hn]
  exact mul_pos (by exact_mod_cast Nat.pos_of_ne_zero hn) hkey

lemma list_sum_eq_fin_sum (x : List ℝ) :
    x.sum = ∑ i : Fin x.length, x.get i := by
  conv_lhs => rw [← List.ofFn_get x]
  rw [List.sum_ofFn]

lemma list_map_sum_eq_fin_sum (x : List ℝ) (g : ℝ → ℝ) :
    (x.map g).sum = ∑ i : Fin x.length, g (x.get i) := by
  conv_lhs => rw [← List.ofFn_get x]
  rw [List.map_ofFn, List.sum_ofFn]
  rfl

lemma pearson_self (x : List ℝ) (i j : Fin x.length)
    (hij : x.get i ≠ x.get j) : calculatePearsonCorrelation x x = 1 := by
  have hd : 0 < (x.length : ℝ) * (x.map (fun a => a * a)).sum
      - x.sum * x.sum := by
    rw [list_map_sum_eq_fin_sum, list_sum_eq_fin_sum]
    exact fin_variance_pos x.get i j hij
  simp only [calculatePearsonCorrelation, List.zipWith_same]
  rw [Real.sqrt_mul_self hd.le, if_neg hd.ne', div_self hd.ne']

lemma pearson_const_right (x : List ℝ) (c : ℝ) :
    calculatePearsonCorrelation x (List.replicate x.length c) = 0 := by
  simp only [calculatePearsonCorrelation, List.map_replicate,
    List.length_replicate, List.sum_replicate, nsmul_eq_mul]
  have hz : ((x.length : ℝ) * ((x.length : ℝ) * (c * c))
      - (x.length : ℝ) * c * ((x.length : ℝ) * c)) = 0 := by ring
  rw [hz, mul_zero, Real.sqrt_zero, if_pos rfl]

lemma pearson_const_left (y : List ℝ) (c : ℝ) :
    calculatePearsonCorrelation (List.replicate y.length c) y = 0 := by
  simp only [calculatePearsonCorrelation, List.map_replicate,
    List.length_replicate, List.sum_replicate, nsmul_eq_mul]
  have hz : ((y.length : ℝ) * ((y.length : ℝ) * (c * c))
      - (y.length : ℝ) * c * ((y.length : ℝ) * c)) = 0 := by ring
  rw [hz, zero_mul, Real.sqrt_zero, if_pos rfl]

/-- Claim C6: Pearson correlation of a non-constant series with itself is `1`,
and any pairing with a constant series (zero denominator) yields `0`
rather than a division-by-zero artifact. -/
theorem calculatePearsonCorrelation_spec (x y : List ℝ) (c : ℝ) :
    ((∃ i j : Fin x.length, x.get i ≠ x.get j) →
        calculatePearsonCorrelation x x = 1) ∧
    calculatePearsonCorrelation x (List.replicate x.length c) = 0 ∧
    calculatePearsonCorrelation (List.replicate y.length c) y = 0 :=
  ⟨fun ⟨i, j, hij⟩ => pearson_self x i j hij,
   pearson_const_right x c, pearson_const_left y c⟩

theorem calculatePearsonCorrelation_spec_witness :
    calculatePearsonCorrelation [(1:ℝ), 2] [(1:ℝ), 2] = 1 :=
  (calculatePearsonCorrelation_spec [(1:ℝ), 2] [] 0).1
    ⟨⟨0, by norm_num⟩, ⟨1, by norm_num⟩, by norm_num [List.get]⟩

/-- Structure `ClusterData` of the CorrelationClusteringView. -/
structure ClusterData where
  name : String
  sector : String
  stocks : List String
  avg_correlation : ℝ
  risk_score : ℝ

/-- The 5-point return vector `{1w, 1m, 6m, ytd, 1y}` read off a record
(JavaScript coerces a null field to `0` in the arithmetic that follows). -/
def stockReturns (s : StockData) : List ℝ :=
  [s.change_1w.getD 0, s.change_1m.getD 0, s.change_6m.getD 0,
   s.change_ytd.getD 0, s.change_1y.getD 0]

/-- Entry of the per-sector correlation table: `1` on the diagonal
(`stock1.ticker === stock2.ticker`), Pearson correlation of the two
return vectors otherwise. -/
def pairCorrelation (s1 s2 : StockData) : ℝ :=
  if s1.ticker = s2.ticker then 1
  else calculatePearsonCorrelation (stockReturns s1) (stockReturns s2)

/-- The index pairs `(idx1, idx2)` with `idx1 < idx2` visited by the nested
`forEach` over a cluster, in visit order. -/
def stockPairs {α : Type} : List α → List (α × α)
  | [] => []
  | a :: t => t.map (fun b => (a, b)) ++ stockPairs t

/-- Function `avgCorrelation`: mean of the pairwise correlations over the `i < j`
pairs of a cluster; `0` when there are no pairs (`corrCount > 0` guard). -/
def avgCorrelation (clusterStocks : List StockData) : ℝ :=
  let pairs := stockPairs clusterStocks
  let totalCorr := (pairs.map (fun p => pairCorrelation p.1 p.2)).sum
  let corrCount := pairs.length
  if 0 < corrCount then totalCorr / (corrCount : ℝ) else 0

/-- One sector's pass of the clustering loop: `for (i = 0; i < n; i += 5)`
takes `slice(i, i + 5)` and skips (`continue`) any group with fewer than 2
members; the loop body runs `⌈n / 5⌉ = (n + 4) / 5` times with `i = 5 * j`. -/
def sectorClusters (sector : String) (sectorStocks : List StockData) :
    List ClusterData :=
  (List.range ((sectorStocks.length + 4) / 5)).filterMap (fun j =>
    let clusterStocks := (sectorStocks.drop (5 * j)).take 5
    if clusterStocks.length < 2 then none
    else some
      { name := sector ++ " Cluster " ++ toString (j + 1)
        sector := sector
        stocks := clusterStocks.map (fun s => s.ticker)
        avg_correlation := avgCorrelation clusterStocks
        risk_score := min 100 (avgCorrelation clusterStocks * 100) })

/-- First-occurrence order of the sector keys, as produced by the
`reduce`-into-an-object grouping (string-keyed objects preserve insertion
order). -/
def sectorKeys (stocks : List StockData) : List String :=
  stocks.foldl
    (fun acc s => if s.sector ∈ acc then acc else acc ++ [s.sector]) []

/-- Function `calculateCorrelationClusters`: group by sector, cluster each sector's
list in its existing order, then sort all clusters descending by
`avg_correlation`. -/
def calculateCorrelationClusters (stocks : List StockData) :
    List ClusterData :=
  (((sectorKeys stocks).map (fun sec =>
      sectorClusters sec (stocks.filter (fun s => s.sector == sec)))).flatten
    ).mergeSort (fun a b => decide (b.avg_correlation ≤ a.avg_correlation))

/-- Consecutive groups of 5 sliced off a list in its existing order, as the
specification describes the clustering walk (before the size-≥-2 filter). -/
def sliceChunks {α : Type} (l : List α) : List (List α) :=
  (List.range ((l.length + 4) / 5)).map (fun j => (l.drop (5 * j)).take 5)

lemma filterMap_ite_none {α β : Type} (l : List α) (p : α → Prop)
    [DecidablePred p] (q : α → β) :
    l.filterMap (fun a => if p a then none else some (q a))
      = (l.filter (fun a => decide (¬ p a))).map q := by
  induction l with
  | nil => rfl
  | cons a t ih => by_cases h : p a <;> simp [h, ih]

lemma mem_sectorClusters {sec : String} {g : List StockData}
    {c : ClusterData} (hc : c ∈ sectorClusters sec g) :
    c.sector = sec ∧ c.risk_score = min 100 (c.avg_correlation * 100) := by
  rcases List.mem_filterMap.mp hc with ⟨j, _, hj⟩
  dsimp only at hj
  by_cases h : ((g.drop (5 * j)).take 5).length < 2
  · rw [if_pos h] at hj
    exact absurd hj (by simp)
  · rw [if_neg h] at hj
    cases Option.some.inj hj
    exact ⟨rfl, rfl⟩

lemma sectorClusters_map_stocks (sec : String) (g : List StockData) :
    (sectorClusters sec g).map (fun c => c.stocks)
      = (sliceChunks (g.map (fun s => s.ticker))).filter
          (fun t => decide (2 ≤ t.length)) := by
  unfold sectorClusters sliceChunks
  rw [List.map_filterMap, List.length_map, List.filter_map]
  have hstep : ∀ j : ℕ,
      Option.map (fun c => c.stocks)
        ((fun j => if ((g.drop (5 * j)).take 5).length < 2 then none
          else some
            { name := sec ++ " Cluster " ++ toString (j + 1)
              sector := sec
              stocks := ((g.drop (5 * j)).take 5).map (fun s => s.ticker)
              avg_correlation := avgCorrelation ((g.drop (5 * j)).take 5)
              risk_score :=
                min 100 (avgCorrelation ((g.drop (5 * j)).take 5) * 100) :
              ClusterData }) j)
      = (fun j => if ((g.drop (5 * j)).take 5).length < 2 then none
          else some (((g.drop (5 * j)).take 5).map (fun s => s.ticker))) j :=
    fun j => by
      dsimp only
      by_cases h : ((g.drop (5 * j)).take 5).length < 2
      · rw [if_pos h, if_pos h]
        rfl
      · rw [if_neg h, if_neg h]
        rfl
  rw [List.filterMap_congr (fun j _ => hstep j), filterMap_ite_none]
  simp only [List.map_take, List.map_drop]
  congr 1
  apply List.filter_congr
  intro j _
  simp [Function.comp, Nat.not_lt, List.length_take, List.length_drop,
    List.length_map]

lemma sectorKeys_foldl_mem (l : List StockData) (acc : List String)
    (k : String) :
    (k ∈ l.foldl
        (fun acc s => if s.sector ∈ acc then acc else acc ++ [s.sector]) acc)
      ↔ k ∈ acc ∨ ∃ s ∈ l, s.sector = k := by
  induction l generalizing acc with
  | nil => simp
  | cons s t ih =>
    rw [List.foldl_cons, ih]
    by_cases h : s.sector ∈ acc
    · rw [if_pos h]
      constructor
      · rintro (hacc | ⟨x, hx, hxk⟩)
        · exact Or.inl hacc
        · exact Or.inr ⟨x, List.mem_cons_of_mem s hx, hxk⟩
      · rintro (hacc | ⟨x, hx, hxk⟩)
        · exact Or.inl hacc
        · rcases List.mem_cons.mp hx with rfl | hx'
          · exact Or.inl (hxk ▸ h)
          · exact Or.inr ⟨x, hx', hxk⟩
    · rw [if_neg h]
      constructor
      · rintro (hmem | ⟨x, hx, hxk⟩)
        · rcases List.mem_append.mp hmem with hacc | hsing
          · exact Or.inl hacc
          · exact Or.inr
              ⟨s, List.mem_cons_self s t, (List.mem_singleton.mp hsing).symm⟩
        · exact Or.inr ⟨x, List.mem_cons_of_mem s hx, hxk⟩
      · rintro (hacc | ⟨x, hx, hxk⟩)
        · exact Or.inl (List.mem_append.mpr (Or.inl hacc))
        · rcases List.mem_cons.mp hx with rfl | hx'
          · exact Or.inl
              (List.mem_append.mpr (Or.inr (List.mem_singleton.mpr hxk.symm)))
          · exact Or.inr ⟨x, hx', hxk⟩

lemma mem_sectorKeys (stocks : List StockData) (k : String) :
    k ∈ sectorKeys stocks ↔ ∃ s ∈ stocks, s.sector = k := by
  rw [sectorKeys, sectorKeys_foldl_mem]
  simp

lemma sectorKeys_foldl_nodup (l : List StockData) (acc : List String)
    (hacc : acc.Nodup) :
    (l.foldl
        (fun acc s => if s.sector ∈ acc then acc else acc ++ [s.sector])
        acc).Nodup := by
  induction l generalizing acc with
  | nil => exact hacc
  | cons s t ih =>
    rw [List.foldl_cons]
    by_cases h : s.sector ∈ acc
    · rw [if_pos h]; exact ih acc hacc
    · rw [if_neg h]
      exact ih _ (by simp [List.nodup_append, hacc, h])

lemma sectorKeys_nodup (stocks : List StockData) :
    (sectorKeys stocks).Nodup :=
  sectorKeys_foldl_nodup stocks [] List.nodup_nil

lemma filter_flatten_sectors (keys : List String)
    (F : String → List ClusterData)
    (hF : ∀ k c, c ∈ F k → c.sector = k) (sec : String)
    (hnd : keys.Nodup) :
    (((keys.map F).flatten).filter (fun c => c.sector == sec))
      = if sec ∈ keys then F sec else [] := by
  induction keys with
  | nil => simp
  | cons k ks ih =>
    have hnd' : ks.Nodup := (List.nodup_cons.mp hnd).2
    simp only [List.map_cons, List.flatten_cons, List.filter_append, ih hnd']
    by_cases hk : k = sec
    · subst hk
      have h1 : (F k).filter (fun c => c.sector == k) = F k :=
        List.filter_eq_self.mpr (fun c hc => by simp [hF k c hc])
      have h2 : k ∉ ks := (List.nodup_cons.mp hnd).1
      simp [h1, h2]
    · have h1 : (F k).filter (fun c => c.sector == sec) = [] :=
        List.filter_eq_nil_iff.mpr (fun c hc => by simp [hF k c hc, hk])
      rw [h1]
      by_cases hs : sec ∈ ks
      · rw [if_pos hs, if_pos (List.mem_cons_of_mem k hs)]
        simp
      · rw [if_neg hs, if_neg (fun hm => by
          rcases List.mem_cons.mp hm with rfl | hm'
          exacts [hk rfl, hs hm'])]
        simp

lemma clusters_filter_perm (stocks : List StockData) (sec : String) :
    ((calculateCorrelationClusters stocks).filter
        (fun c => c.sector == sec)).Perm
      (sectorClusters sec (stocks.filter (fun s => s.sector == sec))) := by
  have hp := (List.mergeSort_perm
    (((sectorKeys stocks).map (fun s2 =>
        sectorClusters s2 (stocks.filter (fun s => s.sector == s2)))).flatten)
    (fun a b => decide (b.avg_correlation ≤ a.avg_correlation))).filter
    (fun c => c.sector == sec)
  rw [filter_flatten_sectors _ _
    (fun k c hc => (mem_sectorClusters hc).1) sec (sectorKeys_nodup stocks)]
    at hp
  by_cases h : sec ∈ sectorKeys stocks
  · rw [if_pos h] at hp
    exact hp
  · rw [if_neg h] at hp
    have hnil : stocks.filter (fun s => s.sector == sec) = [] :=
      List.filter_eq_nil_iff.mpr (fun s hs hsec =>
        h ((mem_sectorKeys stocks sec).mpr ⟨s, hs, by simpa using hsec⟩))
    rw [hnil]
    exact hp

lemma clusters_stocks_perm (stocks : List StockData) (sec : String) :
    (((calculateCorrelationClusters stocks).filter
        (fun c => c.sector == sec)).map (fun c => c.stocks)).Perm
      ((sliceChunks ((stocks.filter (fun s => s.sector == sec)).map
          (fun s => s.ticker))).filter (fun t => decide (2 ≤ t.length))) := by
  have hp := (clusters_filter_perm stocks sec).map (fun c => c.stocks)
  rwa [sectorClusters_map_stocks] at hp

/-- A stock record with the given ticker and sector and every numeric field
null; used as concrete test input. -/
def mkStock (t sec : String) : StockData :=
  { ticker := t, name := "", sector := sec, price := none,
    market_cap := none, change_1w := none, change_1m := none,
    change_6m := none, change_ytd := none, change_1y := none,
    change_3y := none, dividend_yield := none, dividend_growth := none,
    payout_ratio := none, peg_ratio := none, pb_ratio := none,
    pe_forward := none, eps_growth_3y := none, revenue_growth_3y := none,
    roe := none, roa := none, beta := none }

/-- Seven records in one sector, in input order. -/
def sevenStocks : List StockData :=
  [mkStock "T1" "T", mkStock "T2" "T", mkStock "T3" "T", mkStock "T4" "T",
   mkStock "T5" "T", mkStock "T6" "T", mkStock "T7" "T"]

/-- Claim C5: within each sector the clustering walks the sector's ticker list in
its existing order, slicing consecutive groups of 5 and keeping exactly the
groups of size at least 2; a sector with exactly 4 tickers yields exactly
one cluster holding all 4 tickers. -/
theorem calculateCorrelationClusters_slice_spec (stocks : List StockData)
    (sec : String) :
    (((calculateCorrelationClusters stocks).filter
        (fun c => c.sector == sec)).map (fun c => c.stocks)).Perm
      ((sliceChunks ((stocks.filter (fun s => s.sector == sec)).map
          (fun s => s.ticker))).filter (fun t => decide (2 ≤ t.length))) ∧
    ((stocks.filter (fun s => s.sector == sec)).length = 4 →
      ((calculateCorrelationClusters stocks).filter
          (fun c => c.sector == sec)).map (fun c => c.stocks)
        = [(stocks.filter (fun s => s.sector == sec)).map
            (fun s => s.ticker)]) := by
  refine ⟨clusters_stocks_perm stocks sec, fun h4 => ?_⟩
  have hp := clusters_stocks_perm stocks sec
  set l := (stocks.filter (fun s => s.sector == sec)).map
    (fun s => s.ticker) with hl
  have hlen : l.length = 4 := by rw [hl, List.length_map, h4]
  have hchunks : sliceChunks l = [l] := by
    unfold sliceChunks
    rw [hlen]
    have h1 : (4 + 4) / 5 = 1 := by norm_num
    rw [h1, show List.range 1 = [0] from rfl]
    simp only [List.map_cons, List.map_nil, Nat.mul_zero, List.drop_zero]
    rw [List.take_of_length_le (by rw [hlen]; norm_num)]
  rw [hchunks] at hp
  have hfilter : ([l]).filter (fun t => decide (2 ≤ t.length)) = [l] := by
    simp [List.filter, hlen]
  rw [hfilter] at hp
  exact List.perm_singleton.mp hp

theorem calculateCorrelationClusters_slice_spec_witness :
    ((calculateCorrelationClusters
        [mkStock "A" "E", mkStock "B" "E", mkStock "C" "E",
         mkStock "D" "E"]).filter
        (fun c => c.sector == "E")).map (fun c => c.stocks)
      = [(([mkStock "A" "E", mkStock "B" "E", mkStock "C" "E",
            mkStock "D" "E"]).filter (fun s => s.sector == "E")).map
          (fun s => s.ticker)] :=
  (calculateCorrelationClusters_slice_spec
    [mkStock "A" "E", mkStock "B" "E", mkStock "C" "E", mkStock "D" "E"]
    "E").2 (by decide)

/-- Claim C4 as stated is false: with exactly 7 records in a sector the code
produces two clusters (slices of 5 and of 2), since the trailing slice has
`length = 2 ≥ 2` and is kept, not dropped.  At `sevenStocks` the sector
"T" has two clusters, refuting "exactly one cluster". -/
theorem calculateCorrelationClusters_seven_cex :
    ¬(((calculateCorrelationClusters sevenStocks).filter
          (fun c => c.sector == "T")).length = 1 ∧
      ∀ c ∈ calculateCorrelationClusters sevenStocks,
        "T6" ∉ c.stocks ∧ "T7" ∉ c.stocks) := by
  rintro ⟨h1, -⟩
  have hp := clusters_stocks_perm sevenStocks "T"
  have hlen := hp.length_eq
  rw [List.length_map, h1] at hlen
  have h2 : ((sliceChunks ((sevenStocks.filter
      (fun s => s.sector == "T")).map (fun s => s.ticker))).filter
        (fun t => decide (2 ≤ t.length))).length = 2 := by decide
  rw [h2] at hlen
  exact absurd hlen (by norm_num)

/-- Claim C4 (amended): a sector with exactly 7 records produces exactly two
clusters for that sector — one holding the first 5 tickers in input order
and one holding the trailing 2 tickers (the trailing slice is kept because
its size 2 meets the ≥ 2 minimum, not dropped). -/
theorem calculateCorrelationClusters_seven_spec (stocks : List StockData)
    (sec : String)
    (h7 : (stocks.filter (fun s => s.sector == sec)).length = 7) :
    (((calculateCorrelationClusters stocks).filter
        (fun c => c.sector == sec)).map (fun c => c.stocks)).Perm
      [((stocks.filter (fun s => s.sector == sec)).map
          (fun s => s.ticker)).take 5,
       ((stocks.filter (fun s => s.sector == sec)).map
          (fun s => s.ticker)).drop 5] := by
  have hp := clusters_stocks_perm stocks sec
  have hlen : ((stocks.filter (fun s => s.sector == sec)).map
      (fun s => s.ticker)).length = 7 := by rw [List.length_map, h7]
  set l := (stocks.filter (fun s => s.sector == sec)).map
    (fun s => s.ticker) with hl
  have hchunks : sliceChunks l = [l.take 5, (l.drop 5).take 5] := by
    unfold sliceChunks
    rw [hlen]
    norm_num [List.range_succ]
  have hdrop : (l.drop 5).take 5 = l.drop 5 :=
    List.take_of_length_le (by rw [List.length_drop, hlen]; norm_num)
  have hfilter : ([l.take 5, l.drop 5]).filter
      (fun t => decide (2 ≤ t.length)) = [l.take 5, l.drop 5] := by
    have ht : (l.take 5).length = 5 := by
      rw [List.length_take, hlen]
      decide
    have hd : (l.drop 5).length = 2 := by
      rw [List.length_drop, hlen]
    simp [List.filter, ht, hd]
  rw [hchunks, hdrop, hfilter] at hp
  exact hp

theorem calculateCorrelationClusters_seven_spec_witness :
    (((calculateCorrelationClusters sevenStocks).filter
        (fun c => c.sector == "T")).map (fun c => c.stocks)).Perm
      [((sevenStocks.filter (fun s => s.sector == "T")).map
          (fun s => s.ticker)).take 5,
       ((sevenStocks.filter (fun s => s.sector == "T")).map
          (fun s => s.ticker)).drop 5] :=
  calculateCorrelationClusters_seven_spec sevenStocks "T" (by decide)

/-- Claim C7: every cluster's `risk_score` is `min 100 (avg_correlation * 100)`:
clamped at 100 on the high side only, so a cluster with negative average
correlation gets the negative score `avg_correlation * 100`, not 0. -/
theorem calculateCorrelationClusters_risk_spec (stocks : List StockData)
    (c : ClusterData) (hc : c ∈ calculateCorrelationClusters stocks) :
    c.risk_score = min 100 (c.avg_correlation * 100) ∧
    (c.avg_correlation < 0 →
      c.risk_score = c.avg_correlation * 100 ∧ c.risk_score < 0) := by
  have hc' : c ∈ ((sectorKeys stocks).map (fun sec =>
      sectorClusters sec (stocks.filter
        (fun s => s.sector == sec)))).flatten :=
    (List.mergeSort_perm _ _).mem_iff.mp hc
  rcases List.mem_flatten.mp hc' with ⟨seg, hseg, hcseg⟩
  rcases List.mem_map.mp hseg with ⟨k, -, rfl⟩
  have h := (mem_sectorClusters hcseg).2
  refine ⟨h, fun hneg => ?_⟩
  have h100 : c.avg_correlation * 100 ≤ 100 := by nlinarith
  have hmin : min (100:ℝ) (c.avg_correlation * 100)
      = c.avg_correlation * 100 := min_eq_right h100
  refine ⟨by rw [h, hmin], ?_⟩
  rw [h, hmin]
  nlinarith

/-- Structure `ScoreComponents` of the CompositeScoreView. -/
structure ScoreComponents where
  value : ℝ
  growth : ℝ
  quality : ℝ
  momentum : ℝ
  stability : ℝ

/-- Structure `CompositeScore` of the CompositeScoreView. -/
structure CompositeScore where
  ticker : String
  sector : String
  totalScore : ℝ
  components : ScoreComponents

/-- Model of `Math.min(...list)` over a nonempty spread; the `[]` case stands in for
JavaScript's `Infinity` and is never consulted (an empty eligible cohort
produces no output rows). -/
def listMin : List ℝ → ℝ
  | [] => 0
  | a :: t => t.foldl (fun x y => Min.min x y) a

/-- Model of `Math.max(...list)` over a nonempty spread; `[]` case as in `listMin`. -/
def listMax : List ℝ → ℝ
  | [] => 0
  | a :: t => t.foldl (fun x y => Max.max x y) a

/-- A min/max pair of the cohort metrics table. -/
structure MetricRange where
  lo : ℝ
  hi : ℝ

/-- The cohort's min/max table over the valid stocks. -/
structure CohortMetrics where
  pe : MetricRange
  pb : MetricRange
  peg : MetricRange
  epsGrowth : MetricRange
  revGrowth : MetricRange
  roe : MetricRange
  roa : MetricRange
  momentum : MetricRange

/-- The `validStocks` filter of `calculateCompositeScores`: keep exactly
the records whose nine required fields are all non-null. -/
def validStocksOf (stocks : List StockData) : List StockData :=
  stocks.filter (fun s =>
    s.pe_forward.isSome && s.pb_ratio.isSome && s.peg_ratio.isSome &&
    s.eps_growth_3y.isSome && s.revenue_growth_3y.isSome &&
    s.roe.isSome && s.roa.isSome && s.change_1y.isSome && s.beta.isSome)

/-- The `metrics` object of `calculateCompositeScores`: per-field min/max
over the valid stocks (fields are non-null there, so `getD 0` reads the
actual value). -/
def cohortMetrics (validStocks : List StockData) : CohortMetrics :=
  { pe := ⟨listMin (validStocks.map (fun s => s.pe_forward.getD 0)),
           listMax (validStocks.map (fun s => s.pe_forward.getD 0))⟩
    pb := ⟨listMin (validStocks.map (fun s => s.pb_ratio.getD 0)),
           listMax (validStocks.map (fun s => s.pb_ratio.getD 0))⟩
    peg := ⟨listMin (validStocks.map (fun s => s.peg_ratio.getD 0)),
            listMax (validStocks.map (fun s => s.peg_ratio.getD 0))⟩
    epsGrowth := ⟨listMin (validStocks.map (fun s => s.eps_growth_3y.getD 0)),
                  listMax (validStocks.map (fun s => s.eps_growth_3y.getD 0))⟩
    revGrowth :=
      ⟨listMin (validStocks.map (fun s => s.revenue_growth_3y.getD 0)),
       listMax (validStocks.map (fun s => s.revenue_growth_3y.getD 0))⟩
    roe := ⟨listMin (validStocks.map (fun s => s.roe.getD 0)),
            listMax (validStocks.map (fun s => s.roe.getD 0))⟩
    roa := ⟨listMin (validStocks.map (fun s => s.roa.getD 0)),
            listMax (validStocks.map (fun s => s.roa.getD 0))⟩
    momentum := ⟨listMin (validStocks.map (fun s => s.change_1y.getD 0)),
                 listMax (validStocks.map (fun s => s.change_1y.getD 0))⟩ }

/-- The body of the `validStocks.map` in `calculateCompositeScores`: the
five component scores and the weighted total for one record. -/
def compositeRow (metrics : CohortMetrics) (stock : StockData) :
    CompositeScore :=
  let valueScore :=
    ((100 - normalizeMetric (stock.pe_forward.getD 0)
        metrics.pe.lo metrics.pe.hi) +
     (100 - normalizeMetric (stock.pb_ratio.getD 0)
        metrics.pb.lo metrics.pb.hi) +
     (100 - normalizeMetric (stock.peg_ratio.getD 0)
        metrics.peg.lo metrics.peg.hi)) / 3
  let growthScore :=
    (normalizeMetric (stock.eps_growth_3y.getD 0)
        metrics.epsGrowth.lo metrics.epsGrowth.hi +
     normalizeMetric (stock.revenue_growth_3y.getD 0)
        metrics.revGrowth.lo metrics.revGrowth.hi) / 2
  let qualityScore :=
    (normalizeMetric (stock.roe.getD 0) metrics.roe.lo metrics.roe.hi +
     normalizeMetric (stock.roa.getD 0) metrics.roa.lo metrics.roa.hi) / 2
  let momentumScore :=
    normalizeMetric (stock.change_1y.getD 0)
      metrics.momentum.lo metrics.momentum.hi
  let stabilityScore := 100 - |stock.beta.getD 0 - 1| * 50
  { ticker := stock.ticker
    sector := stock.sector
    totalScore :=
      valueScore * 0.25 + growthScore * 0.25 + qualityScore * 0.20 +
        momentumScore * 0.15 + stabilityScore * 0.15
    components :=
      { value := valueScore, growth := growthScore, quality := qualityScore,
        momentum := momentumScore, stability := stabilityScore } }

/-- Function `calculateCompositeScores`: filter to the valid stocks, score each
against the cohort min/max table, sort descending by `totalScore`. -/
def calculateCompositeScores (stocks : List StockData) :
    List CompositeScore :=
  let validStocks := validStocksOf stocks
  let metrics := cohortMetrics validStocks
  (validStocks.map (compositeRow metrics)).mergeSort
    (fun a b => decide (b.totalScore ≤ a.totalScore))

/-- Claim C1: every output row's total score is
`0.25·value + 0.25·growth + 0.20·quality + 0.15·momentum + 0.15·stability`
(weights summing to 1), and the output is sorted descending by
`totalScore`. -/
theorem calculateCompositeScores_weights_spec (stocks : List StockData) :
    (∀ c ∈ calculateCompositeScores stocks,
      c.totalScore = 0.25 * c.components.value + 0.25 * c.components.growth
        + 0.20 * c.components.quality + 0.15 * c.components.momentum
        + 0.15 * c.components.stability) ∧
    ((0.25 + 0.25 + 0.20 + 0.15 + 0.15 : ℝ) = 1) ∧
    List.Sorted (fun a b => b.totalScore ≤ a.totalScore)
      (calculateCompositeScores stocks) := by
  refine ⟨fun c hc => ?_, by norm_num, ?_⟩
  · have hc' := (List.mergeSort_perm _ _).mem_iff.mp hc
    rcases List.mem_map.mp hc' with ⟨s, -, rfl⟩
    simp only [compositeRow]
    ring
  · have hs := @List.sorted_mergeSort CompositeScore
      (fun a b => decide (b.totalScore ≤ a.totalScore))
      (fun a b c hab hbc => by
        simp only [decide_eq_true_eq] at *
        exact le_trans hbc hab)
      (fun a b => by
        simp only [Bool.or_eq_true, decide_eq_true_eq]
        exact le_total b.totalScore a.totalScore)
      ((validStocksOf stocks).map
        (compositeRow (cohortMetrics (validStocksOf stocks))))
    exact List.Pairwise.imp (fun h => decide_eq_true_eq.mp h) hs

/-- A record with every scored field present; concrete witness input. -/
def fullStock : StockData :=
  { ticker := "W", name := "", sector := "T", price := none,
    market_cap := none, change_1w := none, change_1m := none,
    change_6m := none, change_ytd := none, change_1y := some 12,
    change_3y := none, dividend_yield := none, dividend_growth := none,
    payout_ratio := none, peg_ratio := some 2, pb_ratio := some 3,
    pe_forward := some 15, eps_growth_3y := some 8,
    revenue_growth_3y := some 6, roe := some 20, roa := some 9,
    beta := some 1 }

theorem calculateCompositeScores_weights_spec_witness :
    (compositeRow (cohortMetrics (validStocksOf [fullStock]))
        fullStock).totalScore
      = 0.25 * (compositeRow (cohortMetrics (validStocksOf [fullStock]))
          fullStock).components.value
        + 0.25 * (compositeRow (cohortMetrics (validStocksOf [fullStock]))
            fullStock).components.growth
        + 0.20 * (compositeRow (cohortMetrics (validStocksOf [fullStock]))
            fullStock).components.quality
        + 0.15 * (compositeRow (cohortMetrics (validStocksOf [fullStock]))
            fullStock).components.momentum
        + 0.15 * (compositeRow (cohortMetrics (validStocksOf [fullStock]))
            fullStock).components.stability :=
  (calculateCompositeScores_weights_spec [fullStock]).1 _ (by
    have h : calculateCompositeScores [fullStock]
        = [compositeRow (cohortMetrics (validStocksOf [fullStock]))
            fullStock] := by
      show (List.map (compositeRow (cohortMetrics (validStocksOf
        [fullStock]))) (validStocksOf [fullStock])).mergeSort _ = _
      rw [show validStocksOf [fullStock] = [fullStock] from rfl,
        List.map_cons, List.map_nil, List.mergeSort_singleton]
    rw [h]
    exact List.mem_singleton.mpr rfl)

/-- Claim C8: the composite scorer emits exactly one row per record whose nine
required fields (`pe_forward`, `pb_ratio`, `peg_ratio`, `eps_growth_3y`,
`revenue_growth_3y`, `roe`, `roa`, `change_1y`, `beta`) are all non-null;
records missing any of them are excluded entirely and never scored. -/
theorem calculateCompositeScores_eligibility_spec (stocks : List StockData) :
    (calculateCompositeScores stocks).Perm
      ((stocks.filter (fun s =>
          s.pe_forward.isSome && s.pb_ratio.isSome && s.peg_ratio.isSome &&
          s.eps_growth_3y.isSome && s.revenue_growth_3y.isSome &&
          s.roe.isSome && s.roa.isSome && s.change_1y.isSome &&
          s.beta.isSome)).map
        (compositeRow (cohortMetrics (validStocksOf stocks)))) ∧
    (calculateCompositeScores stocks).length
      = (stocks.filter (fun s =>
          s.pe_forward.isSome && s.pb_ratio.isSome && s.peg_ratio.isSome &&
          s.eps_growth_3y.isSome && s.revenue_growth_3y.isSome &&
          s.roe.isSome && s.roa.isSome && s.change_1y.isSome &&
          s.beta.isSome)).length := by
  have hp : (calculateCompositeScores stocks).Perm
      ((validStocksOf stocks).map
        (compositeRow (cohortMetrics (validStocksOf stocks)))) :=
    List.mergeSort_perm _ _
  exact ⟨hp, by rw [hp.length_eq, List.length_map]; rfl⟩

/-- Two records in one sector; concrete witness input for the cluster risk
score. -/
def pairStocks : List StockData := [mkStock "A" "T", mkStock "B" "T"]

/-- The single cluster produced from `pairStocks`. -/
def pairCluster : ClusterData :=
  { name := "T Cluster 1", sector := "T", stocks := ["A", "B"],
    avg_correlation := avgCorrelation pairStocks,
    risk_score := min 100 (avgCorrelation pairStocks * 100) }

lemma pairClusters_eq :
    calculateCorrelationClusters pairStocks = [pairCluster] := by
  have h : calculateCorrelationClusters pairStocks
      = ([pairCluster]).mergeSort
          (fun a b => decide (b.avg_correlation ≤ a.avg_correlation)) := rfl
  rw [h, List.mergeSort_singleton]

theorem calculateCorrelationClusters_risk_spec_witness :
    pairCluster.risk_score = min 100 (pairCluster.avg_correlation * 100) :=
  (calculateCorrelationClusters_risk_spec pairStocks pairCluster
    (by rw [pairClusters_eq]; exact List.mem_singleton.mpr rfl)).1

/-- Structure `DividendMetrics`: one row of the DividendView.  After the `yield > 0`
filter the yield is a non-null number, read with `getD 0`;
`dividend_growth` and `payout_ratio` are passed through unexamined. -/
structure DividendMetrics where
  ticker : String
  sector : String
  dividend_yield : ℝ
  dividend_growth : Option ℝ
  payout_ratio : Option ℝ

/-- Function `calculateDividendMetrics`: keep records with `dividend_yield > 0`
(JavaScript's `null > 0` is false, so null yields are dropped too),
project the dividend fields, sort descending by yield. -/
def calculateDividendMetrics (stocks : List StockData) :
    List DividendMetrics :=
  ((stocks.filter (fun s => decide (0 < s.dividend_yield.getD 0))).map
    (fun stock =>
      { ticker := stock.ticker, sector := stock.sector,
        dividend_yield := stock.dividend_yield.getD 0,
        dividend_growth := stock.dividend_growth,
        payout_ratio := stock.payout_ratio })).mergeSort
    (fun a b => decide (b.dividend_yield ≤ a.dividend_yield))

/-- Claim C9: a record contributes a dividend-metrics row iff its
`dividend_yield` is non-null and strictly positive; yield `0` and yield
`null` are both excluded, and every emitted row (hence everything the
sector aggregates consume) carries a strictly positive yield. -/
theorem calculateDividendMetrics_spec (stocks : List StockData) :
    (calculateDividendMetrics stocks).Perm
      ((stocks.filter (fun s => decide (0 < s.dividend_yield.getD 0))).map
        (fun stock =>
          { ticker := stock.ticker, sector := stock.sector,
            dividend_yield := stock.dividend_yield.getD 0,
            dividend_growth := stock.dividend_growth,
            payout_ratio := stock.payout_ratio })) ∧
    (∀ s : StockData, 0 < s.dividend_yield.getD 0 ↔
      ∃ y, s.dividend_yield = some y ∧ 0 < y) ∧
    (∀ row ∈ calculateDividendMetrics stocks, 0 < row.dividend_yield) := by
  refine ⟨List.mergeSort_perm _ _, fun s => ?_, fun row hrow => ?_⟩
  · cases h : s.dividend_yield with
    | none => simp [h]
    | some y => simp [h]
  · have hrow' := (List.mergeSort_perm _ _).mem_iff.mp hrow
    rcases List.mem_map.mp hrow' with ⟨s, hs, rfl⟩
    have := List.of_mem_filter hs
    simpa using this

/-- A record with a positive dividend yield; concrete witness input. -/
def divStock : StockData :=
  { mkStock "D" "E" with dividend_yield := some 3 }

/-- The dividend-metrics row produced from `divStock`. -/
def divStockRow : DividendMetrics :=
  { ticker := "D", sector := "E", dividend_yield := 3,
    dividend_growth := none, payout_ratio := none }

lemma divMetrics_eq : calculateDividendMetrics [divStock] = [divStockRow] := by
  have h : calculateDividendMetrics [divStock]
      = ([divStockRow]).mergeSort
          (fun a b => decide (b.dividend_yield ≤ a.dividend_yield)) := by
    show (List.map _ ([divStock].filter
      (fun s => decide (0 < s.dividend_yield.getD 0)))).mergeSort _ = _
    rw [show [divStock].filter
        (fun s => decide (0 < s.dividend_yield.getD 0)) = [divStock] by
      simp [divStock, mkStock]]
    rfl
  rw [h, List.mergeSort_singleton]

theorem calculateDividendMetrics_spec_witness :
    (0:ℝ) < divStockRow.dividend_yield :=
  (calculateDividendMetrics_spec [divStock]).2.2 _ (by
    rw [divMetrics_eq]
    exact List.mem_singleton.mpr rfl)

namespace FinancialMetrics

/-- Structure `RiskReturnMetrics` of `utils/financialMetrics.ts`:
`riskAdjustedReturn` and `sharpeRatio` use the `null` sentinel. -/
structure RiskReturnMetrics where
  annualReturn : ℝ
  riskAdjustedReturn : Option ℝ
  sharpeRatio : Option ℝ

/-- Function `calculateRiskReturnMetrics` of `utils/financialMetrics.ts`.
The source's `.filter(r => r !== null)` on the return series is a no-op
(`null / 100` is already the number `0` in JavaScript) and is omitted.
`stock.beta && stock.beta !== 0` is falsy for `null` and for `0`. -/
def calculateRiskReturnMetrics (stock : StockData)
    (riskFreeRate : ℝ := 0.05) : RiskReturnMetrics :=
  let returns := [stock.change_1m.getD 0 / 100, stock.change_6m.getD 0 / 100,
    stock.change_1y.getD 0 / 100]
  let sharpeRatio := computeSharpeRatio returns riskFreeRate
  let annualReturn := stock.change_1y.getD 0 / 100
  let riskAdjustedReturn :=
    match stock.beta with
    | some b => if b = 0 then none else some (annualReturn / b)
    | none => none
  { annualReturn := annualReturn, riskAdjustedReturn := riskAdjustedReturn,
    sharpeRatio := sharpeRatio }

end FinancialMetrics

namespace RiskReturnView

/-- Structure `RiskReturnMetrics` of the RiskReturnView: the displayed row,
in which `riskAdjustedReturn` and `sharpeRatio` are plain numbers. -/
structure RiskReturnMetrics where
  ticker : String
  sector : String
  beta : Option ℝ
  annualReturn : ℝ
  riskAdjustedReturn : ℝ
  sharpeRatio : ℝ

/-- The `map` body of the view's `calculateRiskReturnMetrics`: a `null`
sentinel from the underlying computation is replaced by `0`. -/
def rowOf (stock : StockData) : RiskReturnMetrics :=
  let metrics := FinancialMetrics.calculateRiskReturnMetrics stock 0.05
  { ticker := stock.ticker
    sector := stock.sector
    beta := stock.beta
    annualReturn := metrics.annualReturn * 100
    riskAdjustedReturn :=
      match metrics.riskAdjustedReturn with
      | some v => v * 100
      | none => 0
    sharpeRatio :=
      match metrics.sharpeRatio with
      | some v => v
      | none => 0 }

/-- The view's `calculateRiskReturnMetrics`: filter to records with the
three change fields non-null, build rows, sort descending by Sharpe. -/
def calculateRiskReturnMetrics (stocks : List StockData) :
    List RiskReturnMetrics :=
  ((stocks.filter (fun s =>
      s.change_1y.isSome && s.change_1m.isSome && s.change_6m.isSome)).map
    rowOf).mergeSort (fun a b => decide (b.sharpeRatio ≤ a.sharpeRatio))

end RiskReturnView

/-- Claim C10: whenever the underlying financial-metrics computation yields
the `null` sentinel for `sharpeRatio` or `riskAdjustedReturn`, the view row
reports `0` for that field, so an undefined Sharpe ratio is
indistinguishable in the row from a Sharpe ratio of exactly `0`. -/
theorem riskReturnView_sentinel_spec (stock : StockData) :
    ((FinancialMetrics.calculateRiskReturnMetrics stock 0.05).sharpeRatio
        = none → (RiskReturnView.rowOf stock).sharpeRatio = 0) ∧
    ((FinancialMetrics.calculateRiskReturnMetrics stock
        0.05).riskAdjustedReturn = none →
      (RiskReturnView.rowOf stock).riskAdjustedReturn = 0) ∧
    ((FinancialMetrics.calculateRiskReturnMetrics stock 0.05).sharpeRatio
        = some 0 → (RiskReturnView.rowOf stock).sharpeRatio = 0) := by
  refine ⟨fun h => ?_, fun h => ?_, fun h => ?_⟩ <;>
    simp [RiskReturnView.rowOf, h]

/-- A record whose three returns are equal (undefined Sharpe) and whose
beta is null (undefined risk-adjusted return); concrete witness input. -/
def sentinelStock : StockData :=
  { mkStock "S" "T" with
      change_1m := some 5
      change_6m := some 5
      change_1y := some 5 }

lemma sentinelStock_sharpe_none :
    (FinancialMetrics.calculateRiskReturnMetrics sentinelStock
      0.05).sharpeRatio = none := by
  have h : (FinancialMetrics.calculateRiskReturnMetrics sentinelStock
      0.05).sharpeRatio
      = computeSharpeRatio (List.replicate 3 ((5:ℝ) / 100)) 0.05 := rfl
  rw [h, computeSharpeRatio_replicate ((5:ℝ) / 100) 0.05 (by norm_num)]

theorem riskReturnView_sentinel_spec_witness :
    (RiskReturnView.rowOf sentinelStock).sharpeRatio = 0 ∧
    (RiskReturnView.rowOf sentinelStock).riskAdjustedReturn = 0 :=
  ⟨(riskReturnView_sentinel_spec sentinelStock).1 sentinelStock_sharpe_none,
   (riskReturnView_sentinel_spec sentinelStock).2.1 rfl⟩

end
